import Mathlib

/-!
# WhatsApp bot: contact filtering and response routing

A shallow embedding of the decision logic of `src/app.js` (class `WhatsAppBot`):
`normalizePhoneNumber`, `extractPhoneFromJid`, `isContactAllowed`,
`extractMessageContent`, `isBotMentioned`, `sendMessage`,
`sendMessageWithMention`, `processMessageWithAI` and `handleMessages`.

JavaScript strings are embedded as Lean `String`s and handled through their
character lists.  All patterns the program searches for (`'@'`, `':'`, `'+'`,
`'00'`, `'/'`, `'@g.us'`, decimal digits) are ASCII, and substring search on
well-formed strings does not depend on the UTF-16 view of the text.
-/

namespace WhatsAppBot

/-! ## String primitives of the host language -/

/-- List-level substring search: `includesChars s t` holds when `t` occurs in
`s` as a contiguous block. -/
def includesChars : List Char → List Char → Bool
  | [], t => t.isPrefixOf []
  | c :: s, t => t.isPrefixOf (c :: s) || includesChars s t

/-- The method `String.prototype.includes`: `includes s t` is `s.includes(t)`. -/
def includes (s t : String) : Bool :=
  includesChars s.data t.data

/-- The method `String.prototype.startsWith`: `startsWith s p` is `s.startsWith(p)`. -/
def startsWith (s p : String) : Bool :=
  p.data.isPrefixOf s.data

/-- The method `String.prototype.endsWith`: `endsWith s p` is `s.endsWith(p)`. -/
def endsWith (s p : String) : Bool :=
  p.data.isSuffixOf s.data

/-- The method `String.prototype.substring` with one argument. -/
def substring (s : String) (start : Nat) : String :=
  ⟨s.data.drop start⟩

/-- The expression `s.split(sep)[0]` for a one-character separator: the part
of `s` before the first occurrence of `sep`, the whole of `s` when there is
none. -/
def splitHead (s : String) (sep : Char) : String :=
  ⟨s.data.takeWhile (fun c => c != sep)⟩

/-- The character class `[\d+]`, whose complement the regular expression
`/[^\d+]/g` of `normalizePhoneNumber` deletes. -/
def isDigitOrPlus (c : Char) : Bool :=
  c.isDigit || c == '+'

/-- The call `phoneNumber.replace(/[^\d+]/g, '')`. -/
def stripNonDigitPlus (s : String) : String :=
  ⟨s.data.filter isDigitOrPlus⟩

/-! ## Contact normalisation and admission filter (`app.js`, lines 46-104) -/

/-- The method `normalizePhoneNumber` (lines 46-61). -/
def normalizePhoneNumber (phoneNumber : String) : String :=
  let normalized := stripNonDigitPlus phoneNumber
  if startsWith normalized "+" then
    normalized
  else if startsWith normalized "00" then
    "+" ++ substring normalized 2
  else
    normalized

/-- The method `extractPhoneFromJid` (lines 63-68). -/
def extractPhoneFromJid (jid : String) : String :=
  let phoneNumber := splitHead jid '@'
  normalizePhoneNumber phoneNumber

/-- The arrow function handed to `Array.prototype.some` at lines 82-84 and
93-95: `phoneNumber.includes(n) || n.includes(phoneNumber)`. -/
def fuzzyMatch (phoneNumber n : String) : Bool :=
  includes phoneNumber n || includes n phoneNumber

/-- The two lists built by `setupContactFilters` (lines 20-32). -/
structure ContactFilters where
  includedOnly : List String
  excluded : List String
  deriving Repr, DecidableEq

/-- The method `isContactAllowed` (lines 70-104).  The `if (isGroup)` block of
lines 72-76 holds only comments, so `isGroup` does not reach the result. -/
def isContactAllowed (self : ContactFilters) (jid : String) (isGroup : Bool) : Bool :=
  let phoneNumber := extractPhoneFromJid jid
  if self.excluded.length > 0
      && self.excluded.any (fun excludedNumber => fuzzyMatch phoneNumber excludedNumber) then
    false
  else if self.includedOnly.length > 0
      && !(self.includedOnly.any (fun includedNumber => fuzzyMatch phoneNumber includedNumber)) then
    false
  else
    true

/-! ## Inbound events (`messages.upsert`) -/

/-- The object at `contextInfo` of an extended text message. -/
structure ContextInfo where
  mentionedJid : Option (List String)
  deriving Repr, DecidableEq

/-- The object at `msg.message.extendedTextMessage`; its `text` is a string
field of the transport's message schema. -/
structure ExtendedTextMessage where
  text : String
  contextInfo : Option ContextInfo
  deriving Repr, DecidableEq

/-- The object at `msg.message`: only the two fields the program reads. -/
structure Message where
  conversation : Option String
  extendedTextMessage : Option ExtendedTextMessage
  deriving Repr, DecidableEq

/-- The object at `msg.key`. -/
structure MessageKey where
  remoteJid : String
  fromMe : Bool
  participant : Option String
  deriving Repr, DecidableEq

/-- One entry of `m.messages`. -/
structure WAMessage where
  key : MessageKey
  message : Option Message
  pushName : Option String
  participant : Option String
  deriving Repr, DecidableEq

/-- The argument of the `messages.upsert` handler. -/
structure Upsert where
  messages : List WAMessage
  deriving Repr, DecidableEq

/-- Truthiness of a value that is a string or `undefined`: the empty string
and `undefined` are falsy. -/
def truthy (v : Option String) : Bool :=
  match v with
  | some s => s != ""
  | none => false

/-- The operator `a || b` on values that are strings or `undefined`. -/
def jsOr (a b : Option String) : Option String :=
  if truthy a then a else b

/-! ## Exceptions and effects -/

/-- The exceptions the modelled code can meet. -/
inductive JsError where
  | typeError
  | referenceError
  | requestFailed
  deriving Repr, DecidableEq

/-- The statement `try { body } catch (error) { handler }` for code without
effects. -/
def tryCatchPure {α : Type} (body : Except JsError α) (handler : JsError → Except JsError α) :
    Except JsError α :=
  match body with
  | .ok a => .ok a
  | .error e => handler e

/-- The JSON body of the request to `/chat` (lines 255-262). -/
structure ChatRequest where
  message : String
  user_id : String
  user_name : String
  is_group : Bool
  is_mentioned : Bool
  participant_id : Option String
  deriving Repr, DecidableEq

/-- The second argument of `sock.sendMessage` for text messages. -/
structure TextContent where
  text : String
  mentions : Option (List String)
  deriving Repr, DecidableEq

/-- The calls the program makes on its collaborators, in the order they are
issued.  `sendMessage dest content quoted` is `sock.sendMessage(dest, content)`
when `quoted` is `none` and `sock.sendMessage(dest, content, \x7b quoted \x7d)`
otherwise; `setTimeout` records the deferred `paused` presence update of
`sendTyping`. -/
inductive Effect where
  | readMessages (keys : List MessageKey)
  | sendPresenceUpdate (state : String) (dest : String)
  | setTimeout (state : String) (dest : String) (duration : Nat)
  | post (request : ChatRequest)
  | sendMessage (dest : String) (content : TextContent) (quoted : Option WAMessage)
  deriving Repr, DecidableEq

/-- The collaborators as oracles.  `userId` is `sock.user.id` (`none` while
`sock.user` is undefined); `succeeds h e` tells whether the transport call
`e` resolves after the calls `h`; `chat h request` is `response.data.response`
of the remote service after the calls `h`, `none` when `axios.post` rejects. -/
structure World where
  userId : Option String
  succeeds : List Effect → Effect → Bool
  chat : List Effect → ChatRequest → Option String

/-- Result of an `async` method: how it settles, and the calls made so far. -/
abbrev Run (α : Type) := Except JsError α × List Effect

/-- Sequencing of `await`: a rejection skips the continuation. -/
def Run.andThen {α β : Type} (r : Run α) (k : α → List Effect → Run β) : Run β :=
  match r with
  | (.ok a, h) => k a h
  | (.error e, h) => (.error e, h)

/-- The statement `try { body } catch (error) { handler }` around awaited calls. -/
def Run.tryCatch {α : Type} (r : Run α) (handler : JsError → List Effect → Run α) : Run α :=
  match r with
  | (.ok a, h) => (.ok a, h)
  | (.error e, h) => handler e h

/-- Whether an effect is a call of the remote service. -/
def Effect.isRemoteCall : Effect → Bool
  | .post _ => true
  | _ => false

/-- Whether an effect is an outbound message send. -/
def Effect.isSend : Effect → Bool
  | .sendMessage _ _ _ => true
  | _ => false

/-! ## Mention resolution and dispatch (`app.js`, lines 214-308) -/

/-- The method `extractMessageContent` (lines 214-221); reading a property of
an absent `msg.message` throws. -/
def extractMessageContent (msg : WAMessage) : Except JsError String :=
  match msg.message with
  | none => .error .typeError
  | some message =>
    if truthy message.conversation then
      .ok (message.conversation.getD "")
    else
      match message.extendedTextMessage with
      | some ext => .ok ext.text
      | none => .ok ""

/-- The expression `msg.message?.extendedTextMessage?.contextInfo?.mentionedJid || []`
(line 233). -/
def mentionsOf (msg : WAMessage) : List String :=
  match msg.message with
  | none => []
  | some message =>
    match message.extendedTextMessage with
    | none => []
    | some ext =>
      match ext.contextInfo with
      | none => []
      | some ctx => ctx.mentionedJid.getD []

/-- The method `isBotMentioned` (lines 223-251).  The variable `isTextMention`
of line 246 is declared only inside the comment of lines 240-244, so reading
it throws a `ReferenceError`, which the `catch` of line 247 turns into `false`;
it is read only when `isMentioned` is false. -/
def isBotMentioned (w : World) (msg : WAMessage) (isGroup : Bool) : Except JsError Bool :=
  if !isGroup then .ok false
  else
    tryCatchPure
      (match w.userId with
        | none => .error .typeError
        | some botId =>
          let botNumber := splitHead botId ':'
          match extractMessageContent msg with
          | .error e => .error e
          | .ok _messageContent =>
            let mentions := mentionsOf msg
            let isMentioned := mentions.any (fun mention =>
              includes mention botNumber || includes mention botId)
            if isMentioned then .ok true else .error .referenceError)
      (fun _error => .ok false)

/-- The method `sendMessage` (lines 280-287): the `catch` only logs. -/
def sendMessage (w : World) (h : List Effect) (dest message : String) : Run Unit :=
  let call := Effect.sendMessage dest { text := message, mentions := none } none
  if w.succeeds h call then (.ok (), h ++ [call])
  else (.ok (), h ++ [call])

/-- The method `sendMessageWithMention` (lines 289-308). -/
def sendMessageWithMention (w : World) (h : List Effect) (dest message mentionJid mentionName : String)
    (quotedMessage : WAMessage) : Run Unit :=
  let tag := "@" ++ splitHead mentionJid '@'
  let fullMessage := tag ++ " " ++ message
  let call := Effect.sendMessage dest { text := fullMessage, mentions := some [mentionJid] }
    (some quotedMessage)
  Run.tryCatch
    (if w.succeeds h call then (.ok (), h ++ [call]) else (.error .requestFailed, h ++ [call]))
    (fun _error h1 => sendMessage w h1 dest (mentionName ++ ": " ++ message))

/-- The method `markAsRead` (lines 325-332): the `catch` only logs. -/
def markAsRead (w : World) (h : List Effect) (messageKey : MessageKey) : Run Unit :=
  let call := Effect.readMessages [messageKey]
  if w.succeeds h call then (.ok (), h ++ [call])
  else (.ok (), h ++ [call])

/-- The method `sendTyping` (lines 338-348): after a successful `composing`
update the `paused` update is scheduled and not awaited. -/
def sendTyping (w : World) (h : List Effect) (dest : String) (duration : Nat) : Run Unit :=
  let call := Effect.sendPresenceUpdate "composing" dest
  if w.succeeds h call then (.ok (), h ++ [call, Effect.setTimeout "paused" dest duration])
  else (.ok (), h ++ [call])

/-- The method `processMessageWithAI` (lines 253-278): the `catch` logs and
rethrows.  The pause of lines 270-271 changes no value and is left out. -/
def processMessageWithAI (w : World) (h : List Effect) (message userId userName : String)
    (isGroup isMentioned : Bool) (participantId : Option String) : Run String :=
  let request : ChatRequest :=
    { message := message, user_id := userId, user_name := userName, is_group := isGroup,
      is_mentioned := isMentioned, participant_id := participantId }
  match w.chat h request with
  | some response => (.ok response, h ++ [Effect.post request])
  | none => (.error .requestFailed, h ++ [Effect.post request])

/-- The text sent by the `catch` of `handleMessages` (line 210). -/
def apology : String :=
  "Désolé, je rencontre un problème technique. Réessayez plus tard."

/-- The method `handleMessages` (lines 144-212), run on an empty history.
The pause of line 186 changes no value and is left out. -/
def handleMessages (w : World) (self : ContactFilters) (m : Upsert) : Run Unit :=
  match m.messages.head? with
  | none => (.error .typeError, [])
  | some msg =>
    if msg.message.isNone || msg.key.fromMe then (.ok (), [])
    else
      match extractMessageContent msg with
      | .error e => (.error e, [])
      | .ok messageContent =>
        let sender := msg.key.remoteJid
        let senderName := (jsOr msg.pushName (some "Utilisateur")).getD ""
        let isGroup := endsWith sender "@g.us"
        let participantId := jsOr msg.key.participant msg.participant
        let contactToCheck := if isGroup then participantId else some sender
        match contactToCheck with
        | none => (.error .typeError, [])
        | some jid =>
          if !isContactAllowed self jid isGroup then (.ok (), [])
          else
            (markAsRead w [] msg.key).andThen fun _ h1 =>
            match isBotMentioned w msg isGroup with
            | .error e => (.error e, h1)
            | .ok mentioned =>
              let shouldRespond := !isGroup || mentioned || startsWith messageContent "/"
              if !shouldRespond then (.ok (), h1)
              else
                Run.tryCatch
                  ((sendTyping w h1 sender 2000).andThen fun _ h2 =>
                   (processMessageWithAI w h2 messageContent sender senderName isGroup mentioned
                      participantId).andThen fun response h3 =>
                   if isGroup && truthy participantId then
                     sendMessageWithMention w h3 sender response (participantId.getD "")
                       senderName msg
                   else
                     sendMessage w h3 sender response)
                  (fun _error h4 => sendMessage w h4 sender apology)

/-! ## Sample inputs -/

/-- A group message `hello` sent by `33612345678` in the group `120363`,
without mention. -/
def sampleGroupMessage : WAMessage :=
  { key := { remoteJid := "120363@g.us", fromMe := false,
             participant := some "33612345678@s.whatsapp.net" },
    message := some { conversation := some "hello", extendedTextMessage := none },
    pushName := some "Ann",
    participant := none }

/-- A group message `/status` sent by `33612345678` in the group `120363`,
without mention. -/
def sampleCommandMessage : WAMessage :=
  { key := { remoteJid := "120363@g.us", fromMe := false,
             participant := some "33612345678@s.whatsapp.net" },
    message := some { conversation := some "/status", extendedTextMessage := none },
    pushName := some "Ann",
    participant := none }

/-- A group message `@33700000000 hello` whose `mentionedJid` list holds the
identifier of the bot of `sampleWorld`. -/
def sampleMentionMessage : WAMessage :=
  { key := { remoteJid := "120363@g.us", fromMe := false,
             participant := some "33612345678@s.whatsapp.net" },
    message := some
      { conversation := none,
        extendedTextMessage := some
          { text := "@33700000000 hello",
            contextInfo := some { mentionedJid := some ["33700000000@s.whatsapp.net"] } } },
    pushName := some "Ann",
    participant := none }

/-- A private message `hi` sent by `33612345678`. -/
def samplePrivateMessage : WAMessage :=
  { key := { remoteJid := "33612345678@s.whatsapp.net", fromMe := false, participant := none },
    message := some { conversation := some "hi", extendedTextMessage := none },
    pushName := some "Ann",
    participant := none }

/-- A world in which the bot is `33700000000`, every transport call succeeds
and the remote service always answers `ok`. -/
def sampleWorld : World :=
  { userId := some "33700000000:7@s.whatsapp.net",
    succeeds := fun _ _ => true,
    chat := fun _ _ => some "ok" }

/-! ## Facts about the string primitives -/

theorem includesChars_iff (s t : List Char) : includesChars s t = true ↔ t <:+: s := by
  induction s with
  | nil => simp [includesChars]
  | cons c s ih =>
    simp only [includesChars, Bool.or_eq_true, List.isPrefixOf_iff_prefix, ih, List.infix_cons_iff]

theorem includes_iff (s t : String) : includes s t = true ↔ t.data <:+: s.data := by
  simp [includes, includesChars_iff]

theorem fuzzyMatch_iff (p n : String) :
    fuzzyMatch p n = true ↔ (n.data <:+: p.data ∨ p.data <:+: n.data) := by
  simp [fuzzyMatch, includes_iff]

theorem includes_empty (s : String) : includes s "" = true := by
  rw [includes_iff]
  exact List.nil_infix

theorem takeWhile_ne_decomp (sep : Char) (l : List Char) :
    l.takeWhile (fun c => c != sep) = l ∨
      ∃ rest, l = l.takeWhile (fun c => c != sep) ++ sep :: rest := by
  induction l with
  | nil => left; rfl
  | cons c l ih =>
    by_cases hc : c = sep
    · right
      exact ⟨l, by simp [List.takeWhile, hc]⟩
    · have hb : (c != sep) = true := by simpa using hc
      rcases ih with h | ⟨rest, h⟩
      · left
        rw [List.takeWhile_cons, hb]
        simp [h]
      · right
        refine ⟨rest, ?_⟩
        rw [List.takeWhile_cons, hb]
        simpa using h

/-- The part before the first separator, as a decomposition of the string. -/
theorem splitHead_spec (s : String) (sep : Char) :
    sep ∉ (splitHead s sep).data ∧
      ((splitHead s sep).data = s.data ∨
        ∃ rest, s.data = (splitHead s sep).data ++ sep :: rest) := by
  constructor
  · intro h
    have := List.mem_takeWhile_imp h
    simp at this
  · exact takeWhile_ne_decomp sep s.data

/-! ## Facts about normalisation -/

theorem normalizePhoneNumber_data (x : String) :
    (normalizePhoneNumber x).data =
      if ['+'].isPrefixOf (x.data.filter isDigitOrPlus) then x.data.filter isDigitOrPlus
      else if ['0', '0'].isPrefixOf (x.data.filter isDigitOrPlus) then
        '+' :: (x.data.filter isDigitOrPlus).drop 2
      else x.data.filter isDigitOrPlus := by
  have h1 : ("+" : String).data = ['+'] := rfl
  have h2 : ("00" : String).data = ['0', '0'] := rfl
  simp only [normalizePhoneNumber, startsWith, stripNonDigitPlus, substring, h1, h2]
  split
  · rfl
  · split
    · simp [String.data_append, h1]
    · rfl

theorem isDigitOrPlus_plus : isDigitOrPlus '+' = true := by decide

theorem normalizePhoneNumber_chars (x : String) :
    ∀ c ∈ (normalizePhoneNumber x).data, isDigitOrPlus c = true := by
  intro c hc
  rw [normalizePhoneNumber_data] at hc
  have hk : ∀ d ∈ x.data.filter isDigitOrPlus, isDigitOrPlus d = true := fun d hd =>
    (List.mem_filter.mp hd).2
  split at hc
  · exact hk c hc
  · split at hc
    · rcases List.mem_cons.mp hc with h | h
      · rw [h]; exact isDigitOrPlus_plus
      · exact hk c (List.mem_of_mem_drop h)
    · exact hk c hc

theorem normalizePhoneNumber_of_clean (r : String)
    (hall : ∀ c ∈ r.data, isDigitOrPlus c = true)
    (h00 : ['+'].isPrefixOf r.data = true ∨ ['0', '0'].isPrefixOf r.data = false) :
    normalizePhoneNumber r = r := by
  apply String.ext
  rw [normalizePhoneNumber_data]
  have hf : r.data.filter isDigitOrPlus = r.data := List.filter_eq_self.mpr hall
  rw [hf]
  rcases h00 with h | h
  · simp [h]
  · simp [h]

/-! ## Facts about the admission filter -/

theorem any_fuzzyMatch_iff (p : String) (l : List String) :
    l.any (fun n => fuzzyMatch p n) = true ↔
      ∃ n ∈ l, n.data <:+: p.data ∨ p.data <:+: n.data := by
  simp only [List.any_eq_true, fuzzyMatch_iff]

theorem isContactAllowed_eq (self : ContactFilters) (jid : String) (isGroup : Bool) :
    isContactAllowed self jid isGroup =
      (!(self.excluded.any (fun n => fuzzyMatch (extractPhoneFromJid jid) n)) &&
        (self.includedOnly.isEmpty ||
          self.includedOnly.any (fun n => fuzzyMatch (extractPhoneFromJid jid) n))) := by
  simp only [isContactAllowed]
  cases hex : self.excluded with
  | nil =>
    cases hin : self.includedOnly with
    | nil => simp
    | cons i is =>
      cases h : (i :: is).any (fun n => fuzzyMatch (extractPhoneFromJid jid) n) <;> simp [h]
  | cons e es =>
    cases h : (e :: es).any (fun n => fuzzyMatch (extractPhoneFromJid jid) n)
    · cases hin : self.includedOnly with
      | nil => simp [h]
      | cons i is =>
        cases h2 : (i :: is).any (fun n => fuzzyMatch (extractPhoneFromJid jid) n) <;>
          simp [h, h2]
    · simp [h]

theorem fuzzyMatch_empty (n : String) : fuzzyMatch "" n = true := by
  simp [fuzzyMatch, includes_empty]

theorem any_fuzzyMatch_empty (l : List String) :
    l.any (fun n => fuzzyMatch "" n) = !l.isEmpty := by
  cases l with
  | nil => rfl
  | cons a t => simp [fuzzyMatch_empty]

theorem extractPhoneFromJid_empty (jid : String)
    (h : ∀ c ∈ (splitHead jid '@').data, ¬ c.isDigit = true ∧ c ≠ '+') :
    extractPhoneFromJid jid = "" := by
  apply String.ext
  simp only [extractPhoneFromJid]
  rw [normalizePhoneNumber_data]
  have hf : (splitHead jid '@').data.filter isDigitOrPlus = [] := by
    rw [List.filter_eq_nil_iff]
    intro c hc
    have := h c hc
    simp [isDigitOrPlus, this.1, this.2]
  rw [hf]
  rfl

/-! ## Facts about mention resolution and dispatch -/

theorem isBotMentioned_total (w : World) (msg : WAMessage) (isGroup : Bool) :
    ∃ b, isBotMentioned w msg isGroup = .ok b := by
  unfold isBotMentioned
  cases isGroup with
  | false => exact ⟨false, rfl⟩
  | true =>
    simp only [Bool.not_true, Bool.false_eq_true, if_false]
    cases w.userId with
    | none => exact ⟨false, rfl⟩
    | some botId =>
      cases extractMessageContent msg with
      | error e => exact ⟨false, rfl⟩
      | ok content =>
        simp only
        split
        · exact ⟨true, rfl⟩
        · exact ⟨false, rfl⟩

theorem extractMessageContent_none (msg : WAMessage) (e : JsError)
    (h : extractMessageContent msg = .error e) : mentionsOf msg = [] := by
  unfold extractMessageContent at h
  unfold mentionsOf
  cases hm : msg.message with
  | none => rfl
  | some message =>
    rw [hm] at h
    simp only at h
    split at h
    · cases h
    · split at h <;> cases h

/-- The entries of `mentionsOf msg` are the entries of the list at
`msg.message.extendedTextMessage.contextInfo.mentionedJid`, when every object
on that path is present. -/
theorem mem_mentionsOf_iff (msg : WAMessage) (mention : String) :
    mention ∈ mentionsOf msg ↔
      ∃ message ext ctx list, msg.message = some message ∧
        message.extendedTextMessage = some ext ∧ ext.contextInfo = some ctx ∧
        ctx.mentionedJid = some list ∧ mention ∈ list := by
  unfold mentionsOf
  cases hm : msg.message with
  | none => simp
  | some message =>
    cases he : message.extendedTextMessage with
    | none => simp [he]
    | some ext =>
      cases hc : ext.contextInfo with
      | none => simp [he, hc]
      | some ctx =>
        cases hl : ctx.mentionedJid with
        | none => simp [he, hc, hl]
        | some list => simp [he, hc, hl]

/-- The result of `isBotMentioned` once `sock.user.id` is known, in terms of
the list read at line 233. -/
theorem isBotMentioned_true_iff (w : World) (botId : String) (msg : WAMessage)
    (isGroup : Bool) :
    isBotMentioned { w with userId := some botId } msg isGroup = .ok true ↔
      isGroup = true ∧ ∃ mention ∈ mentionsOf msg,
        (splitHead botId ':').data <:+: mention.data ∨ botId.data <:+: mention.data := by
  unfold isBotMentioned
  cases isGroup with
  | false => simp
  | true =>
    simp only [Bool.not_true, Bool.false_eq_true, if_false, true_and]
    cases hc : extractMessageContent msg with
    | error e =>
      simp [tryCatchPure, extractMessageContent_none msg e hc]
    | ok content =>
      simp only
      by_cases hany : (mentionsOf msg).any (fun mention =>
          includes mention (splitHead botId ':') || includes mention botId) = true
      · rw [if_pos hany]
        simp only [tryCatchPure, true_iff]
        rw [List.any_eq_true] at hany
        obtain ⟨mention, hmem, hm⟩ := hany
        refine ⟨mention, hmem, ?_⟩
        simpa [includes_iff] using hm
      · rw [if_neg hany]
        simp only [tryCatchPure, Except.ok.injEq, Bool.false_eq_true, false_iff]
        rintro ⟨mention, hmem, hm⟩
        apply hany
        rw [List.any_eq_true]
        exact ⟨mention, hmem, by simpa [includes_iff] using hm⟩

theorem isBotMentioned_of_no_mentions (w : World) (msg : WAMessage) (isGroup : Bool)
    (hnil : mentionsOf msg = []) : isBotMentioned w msg isGroup = .ok false := by
  unfold isBotMentioned
  cases isGroup with
  | false => rfl
  | true =>
    simp only [Bool.not_true, Bool.false_eq_true, if_false, hnil, List.any_nil]
    cases w.userId with
    | none => rfl
    | some botId =>
      cases extractMessageContent msg with
      | error e => rfl
      | ok content => rfl

theorem sendMessage_run (w : World) (h : List Effect) (dest message : String) :
    sendMessage w h dest message =
      (.ok (), h ++ [Effect.sendMessage dest { text := message, mentions := none } none]) := by
  unfold sendMessage
  simp only [ite_self]

theorem markAsRead_run (w : World) (h : List Effect) (messageKey : MessageKey) :
    markAsRead w h messageKey = (.ok (), h ++ [Effect.readMessages [messageKey]]) := by
  unfold markAsRead
  simp only [ite_self]

theorem extractMessageContent_total (msg : WAMessage) (message : Message)
    (h : msg.message = some message) : ∃ content, extractMessageContent msg = .ok content := by
  unfold extractMessageContent
  rw [h]
  simp only
  split
  · exact ⟨_, rfl⟩
  · split <;> exact ⟨_, rfl⟩

/-- The run of `handleMessages` on an event that carries a message, is not
from the bot and whose sender is admitted. -/
theorem handleMessages_admitted (w : World) (self : ContactFilters) (msg : WAMessage)
    (rest : List WAMessage) (message : Message) (jid content : String) (mentioned : Bool)
    (hmsg : msg.message = some message) (hme : msg.key.fromMe = false)
    (hjid : (if endsWith msg.key.remoteJid "@g.us" then jsOr msg.key.participant msg.participant
      else some msg.key.remoteJid) = some jid)
    (hallow : isContactAllowed self jid (endsWith msg.key.remoteJid "@g.us") = true)
    (hcontent : extractMessageContent msg = .ok content)
    (hment : isBotMentioned w msg (endsWith msg.key.remoteJid "@g.us") = .ok mentioned) :
    handleMessages w self ⟨msg :: rest⟩ =
      if (!(endsWith msg.key.remoteJid "@g.us") || mentioned || startsWith content "/") = false
      then (.ok (), [Effect.readMessages [msg.key]])
      else
        Run.tryCatch
          ((sendTyping w [Effect.readMessages [msg.key]] msg.key.remoteJid 2000).andThen
            fun _ h2 =>
              (processMessageWithAI w h2 content msg.key.remoteJid
                ((jsOr msg.pushName (some "Utilisateur")).getD "")
                (endsWith msg.key.remoteJid "@g.us") mentioned
                (jsOr msg.key.participant msg.participant)).andThen fun response h3 =>
              if (endsWith msg.key.remoteJid "@g.us"
                  && truthy (jsOr msg.key.participant msg.participant)) = true then
                sendMessageWithMention w h3 msg.key.remoteJid response
                  ((jsOr msg.key.participant msg.participant).getD "")
                  ((jsOr msg.pushName (some "Utilisateur")).getD "") msg
              else
                sendMessage w h3 msg.key.remoteJid response)
          (fun _error h4 => sendMessage w h4 msg.key.remoteJid apology) := by
  unfold handleMessages
  simp only [List.head?_cons, hmsg, Option.isNone_some, hme, Bool.or_self, Bool.false_eq_true,
    if_false, hcontent, hjid, hallow, Bool.not_true, markAsRead_run, List.nil_append,
    Run.andThen, hment]
  cases hs : (!(endsWith msg.key.remoteJid "@g.us") || mentioned || startsWith content "/") <;>
    simp

theorem sendTyping_run (w : World) (h : List Effect) (dest : String) (duration : Nat) :
    ∃ t, sendTyping w h dest duration = (.ok (), h ++ t) ∧
      t.filter Effect.isSend = [] ∧ t.filter Effect.isRemoteCall = [] := by
  unfold sendTyping
  simp only
  split
  · exact ⟨_, rfl, rfl, rfl⟩
  · exact ⟨_, rfl, rfl, rfl⟩

theorem sendMessageWithMention_run (w : World) (h : List Effect)
    (dest message mentionJid mentionName : String) (quotedMessage : WAMessage) :
    ∃ t, sendMessageWithMention w h dest message mentionJid mentionName quotedMessage =
        (.ok (), h ++ Effect.sendMessage dest
          { text := "@" ++ splitHead mentionJid '@' ++ " " ++ message,
            mentions := some [mentionJid] } (some quotedMessage) :: t) ∧
      t.filter Effect.isRemoteCall = [] := by
  unfold sendMessageWithMention
  simp only
  split
  · exact ⟨[], rfl, rfl⟩
  · exact ⟨[Effect.sendMessage dest { text := mentionName ++ ": " ++ message, mentions := none }
      none], by simp [Run.tryCatch, sendMessage_run], rfl⟩

theorem processMessageWithAI_some (w : World) (h : List Effect) (message userId userName : String)
    (isGroup isMentioned : Bool) (participantId : Option String) (response : String)
    (hchat : w.chat h ⟨message, userId, userName, isGroup, isMentioned, participantId⟩ =
      some response) :
    processMessageWithAI w h message userId userName isGroup isMentioned participantId =
      (.ok response,
        h ++ [Effect.post ⟨message, userId, userName, isGroup, isMentioned, participantId⟩]) := by
  unfold processMessageWithAI
  simp only [hchat]

theorem processMessageWithAI_none (w : World) (h : List Effect) (message userId userName : String)
    (isGroup isMentioned : Bool) (participantId : Option String)
    (hchat : w.chat h ⟨message, userId, userName, isGroup, isMentioned, participantId⟩ = none) :
    processMessageWithAI w h message userId userName isGroup isMentioned participantId =
      (.error .requestFailed,
        h ++ [Effect.post ⟨message, userId, userName, isGroup, isMentioned, participantId⟩]) := by
  unfold processMessageWithAI
  simp only [hchat]

/-- The `try`/`catch` of lines 189-211, run after the calls `h`: the calls it
adds are those of `sendTyping`, one request to the remote service, and the
sends that follow it. -/
theorem respond_run (w : World) (h : List Effect) (sender content senderName : String)
    (isGroup mentioned : Bool) (participantId : Option String) (msg : WAMessage) :
    ∃ t1 t2,
      Run.tryCatch
          ((sendTyping w h sender 2000).andThen fun _ h2 =>
            (processMessageWithAI w h2 content sender senderName isGroup mentioned
              participantId).andThen fun response h3 =>
            if (isGroup && truthy participantId) = true then
              sendMessageWithMention w h3 sender response (participantId.getD "") senderName msg
            else
              sendMessage w h3 sender response)
          (fun _error h4 => sendMessage w h4 sender apology) =
        (.ok (), h ++ t1 ++
          Effect.post ⟨content, sender, senderName, isGroup, mentioned, participantId⟩ :: t2) ∧
      t1.filter Effect.isSend = [] ∧ t1.filter Effect.isRemoteCall = [] ∧
      t2.filter Effect.isRemoteCall = [] ∧
      (∀ response,
        w.chat (h ++ t1) ⟨content, sender, senderName, isGroup, mentioned, participantId⟩ =
          some response →
        ((isGroup && truthy participantId) = true →
          ∃ t3, t2 = Effect.sendMessage sender
            { text := "@" ++ splitHead (participantId.getD "") '@' ++ " " ++ response,
              mentions := some [participantId.getD ""] } (some msg) :: t3) ∧
        ((isGroup && truthy participantId) = false →
          t2 = [Effect.sendMessage sender { text := response, mentions := none } none])) := by
  obtain ⟨t1, ht1, hs1, hr1⟩ := sendTyping_run w h sender 2000
  refine ⟨t1, ?_⟩
  rw [ht1]
  simp only [Run.andThen]
  cases hchat : w.chat (h ++ t1) ⟨content, sender, senderName, isGroup, mentioned, participantId⟩ with
  | none =>
    rw [processMessageWithAI_none _ _ _ _ _ _ _ _ hchat]
    refine ⟨[Effect.sendMessage sender { text := apology, mentions := none } none], ?_, hs1, hr1,
      rfl, ?_⟩
    · simp [Run.tryCatch, sendMessage_run]
    · intro response hresp
      cases hresp
  | some r =>
    rw [processMessageWithAI_some _ _ _ _ _ _ _ _ r hchat]
    simp only
    cases hp : (isGroup && truthy participantId)
    · refine ⟨[Effect.sendMessage sender { text := r, mentions := none } none], ?_, hs1, hr1,
        rfl, ?_⟩
      · simp [Run.tryCatch, sendMessage_run]
      · intro response hresp
        cases hresp
        exact ⟨fun hf => (by cases hf), fun _ => rfl⟩
    · obtain ⟨t3, ht3, hr3⟩ := sendMessageWithMention_run w
        (h ++ t1 ++ [Effect.post ⟨content, sender, senderName, isGroup, mentioned, participantId⟩])
        sender r (participantId.getD "") senderName msg
      refine ⟨Effect.sendMessage sender
        { text := "@" ++ splitHead (participantId.getD "") '@' ++ " " ++ r,
          mentions := some [participantId.getD ""] } (some msg) :: t3, ?_, hs1, hr1, ?_, ?_⟩
      · simp only [if_true]
        rw [ht3]
        simp [Run.tryCatch]
      · simpa [List.filter, Effect.isRemoteCall] using hr3
      · intro response hresp
        cases hresp
        exact ⟨fun _ => ⟨t3, rfl⟩, fun hf => (by cases hf)⟩

/-! ## Claims on `normalizePhoneNumber` -/

/-- C4: `normalizePhoneNumber` is idempotent: normalising a normalised string
gives it back unchanged, for every input string. -/
theorem normalizePhoneNumber_idempotent (x : String) :
    normalizePhoneNumber (normalizePhoneNumber x) = normalizePhoneNumber x := by
  apply normalizePhoneNumber_of_clean _ (normalizePhoneNumber_chars x)
  rw [normalizePhoneNumber_data]
  by_cases h1 : ['+'].isPrefixOf (x.data.filter isDigitOrPlus) = true
  · left
    simp [h1]
  · by_cases h2 : ['0', '0'].isPrefixOf (x.data.filter isDigitOrPlus) = true
    · left
      rw [if_neg h1, if_pos h2]
      simp [List.isPrefixOf]
    · right
      rw [if_neg h1, if_neg h2]
      simpa only [Bool.not_eq_true] using h2

/-- C5, as stated, fails: the input `1+2` is returned as `1+2`, which neither
starts with `+` nor is made only of decimal digits. -/
theorem normalizePhoneNumber_shape_counterexample :
    normalizePhoneNumber "1+2" = "1+2" ∧
      ¬ (startsWith (normalizePhoneNumber "1+2") "+" = true ∨
          (normalizePhoneNumber "1+2").data.all Char.isDigit = true) := by
  decide

/-- C5, amended: the result of `normalizePhoneNumber` is made only of decimal
digits and `+` characters; and when no `+` of the input comes after its first
digit-or-`+` character, the result starts with `+` or is made only of decimal
digits. -/
theorem normalizePhoneNumber_shape (x : String) :
    (normalizePhoneNumber x).data.all isDigitOrPlus = true ∧
      ('+' ∉ (stripNonDigitPlus x).data.tail →
        startsWith (normalizePhoneNumber x) "+" = true ∨
          (normalizePhoneNumber x).data.all Char.isDigit = true) := by
  refine ⟨List.all_eq_true.mpr (normalizePhoneNumber_chars x), ?_⟩
  intro hplus
  have h1 : ("+" : String).data = ['+'] := rfl
  simp only [startsWith, h1, normalizePhoneNumber_data]
  simp only [stripNonDigitPlus] at hplus
  have hk : ∀ d ∈ x.data.filter isDigitOrPlus, isDigitOrPlus d = true := fun d hd =>
    (List.mem_filter.mp hd).2
  generalize x.data.filter isDigitOrPlus = k at hplus hk
  by_cases hA : ['+'].isPrefixOf k = true
  · left
    simp [hA]
  · by_cases hB : ['0', '0'].isPrefixOf k = true
    · left
      rw [if_neg hA, if_pos hB]
      simp [List.isPrefixOf]
    · right
      rw [if_neg hA, if_neg hB]
      rw [List.all_eq_true]
      intro c hc
      have hdp := hk c hc
      cases k with
      | nil => simp at hc
      | cons a t =>
        have hne : c ≠ '+' := by
          rcases List.mem_cons.mp hc with h | h
          · intro hc2
            apply hA
            rw [← h, hc2]
            simp [List.isPrefixOf]
          · intro hc2
            exact hplus (by simpa [hc2] using h)
        simp only [isDigitOrPlus, Bool.or_eq_true, beq_iff_eq] at hdp
        rcases hdp with h | h
        · exact h
        · exact absurd h hne

/-- Witness for C5 amended, at the input `00 33-6`. -/
theorem normalizePhoneNumber_shape_witness :
    '+' ∉ (stripNonDigitPlus "00 33-6").data.tail ∧
      (startsWith (normalizePhoneNumber "00 33-6") "+" = true ∨
        (normalizePhoneNumber "00 33-6").data.all Char.isDigit = true) :=
  ⟨by decide, (normalizePhoneNumber_shape "00 33-6").2 (by decide)⟩

/-- C9: the three documented examples of `normalizePhoneNumber`. -/
theorem normalizePhoneNumber_examples :
    normalizePhoneNumber "0033612345678" = "+33612345678" ∧
      normalizePhoneNumber "+33 6 12 34 56 78" = "+33612345678" ∧
      normalizePhoneNumber "0612345678" = "0612345678" := by
  decide

/-! ## Claims on the admission filter -/

/-- C6: the fuzzy match applied to every deny-list and allow-list entry is
symmetric, and it is the relation "one string occurs in the other". -/
theorem fuzzyMatch_symmetric (a b : String) :
    fuzzyMatch a b = fuzzyMatch b a ∧
      (fuzzyMatch a b = true ↔ (b.data <:+: a.data ∨ a.data <:+: b.data)) :=
  ⟨by simp only [fuzzyMatch, Bool.or_comm], fuzzyMatch_iff a b⟩

/-- C1: `isContactAllowed` accepts exactly when no deny-list entry fuzzy-matches
the normalised number and the allow-list is empty or has a fuzzy-matching
entry; the `isGroup` flag does not matter; and the three documented examples. -/
theorem isContactAllowed_iff (self : ContactFilters) (jid : String) (isGroup : Bool) :
    (isContactAllowed self jid isGroup = true ↔
      (¬ ∃ e ∈ self.excluded,
          e.data <:+: (normalizePhoneNumber (splitHead jid '@')).data ∨
            (normalizePhoneNumber (splitHead jid '@')).data <:+: e.data) ∧
        (self.includedOnly = [] ∨
          ∃ i ∈ self.includedOnly,
            i.data <:+: (normalizePhoneNumber (splitHead jid '@')).data ∨
              (normalizePhoneNumber (splitHead jid '@')).data <:+: i.data)) ∧
      isContactAllowed self jid isGroup = isContactAllowed self jid (!isGroup) ∧
      isContactAllowed ⟨[], ["+3361"]⟩ "+33612345678@s.whatsapp.net" isGroup = false ∧
      isContactAllowed ⟨["+3361"], ["+3361"]⟩ "+33612345678@s.whatsapp.net" isGroup = false ∧
      isContactAllowed ⟨["+3361"], []⟩ "+33612345678@s.whatsapp.net" isGroup = true ∧
      isContactAllowed ⟨["+3361"], []⟩ "+33789@s.whatsapp.net" isGroup = false := by
  refine ⟨?_, rfl, ?_, ?_, ?_, ?_⟩
  · rw [isContactAllowed_eq]
    simp only [Bool.and_eq_true, Bool.not_eq_true', Bool.or_eq_true, List.isEmpty_iff,
      ← Bool.not_eq_true, any_fuzzyMatch_iff, extractPhoneFromJid]
  · cases isGroup <;> decide
  · cases isGroup <;> decide
  · cases isGroup <;> decide
  · cases isGroup <;> decide

/-- C10: when the part of the identifier before the first `@` holds no decimal
digit and no `+`, it normalises to the empty string and `isContactAllowed`
accepts exactly when the deny-list is empty, whatever the allow-list holds. -/
theorem isContactAllowed_degenerate (self : ContactFilters) (jid : String) (isGroup : Bool)
    (h : ∀ c ∈ (splitHead jid '@').data, ¬ c.isDigit = true ∧ c ≠ '+') :
    extractPhoneFromJid jid = "" ∧
      (isContactAllowed self jid isGroup = true ↔ self.excluded = []) := by
  have hp := extractPhoneFromJid_empty jid h
  refine ⟨hp, ?_⟩
  rw [isContactAllowed_eq, hp, any_fuzzyMatch_empty, any_fuzzyMatch_empty]
  cases self.excluded <;> cases self.includedOnly <;> simp

/-- Witness for C10: `status@broadcast` under a deny-list, and under an
allow-list alone. -/
theorem isContactAllowed_degenerate_witness :
    (∀ c ∈ (splitHead "status@broadcast" '@').data, ¬ c.isDigit = true ∧ c ≠ '+') ∧
      isContactAllowed ⟨[], ["+3361"]⟩ "status@broadcast" true = false ∧
      isContactAllowed ⟨["+3361"], []⟩ "status@broadcast" true = true ∧
      (isContactAllowed ⟨["+3361"], []⟩ "status@broadcast" true = true ↔
        (⟨["+3361"], []⟩ : ContactFilters).excluded = []) :=
  ⟨by decide, by decide, by decide,
    (isContactAllowed_degenerate ⟨["+3361"], []⟩ "status@broadcast" true (by decide)).2⟩

/-! ## Claims on mention resolution and dispatch -/

/-- C3: `isBotMentioned` never raises; with bot identifier `botId` it returns
true exactly when `isGroup` is true and some entry of the list at
`msg.message.extendedTextMessage.contextInfo.mentionedJid` contains the bot
number (the part of `botId` before its first `:`) or the whole `botId`; it
returns false when `isGroup` is false, and when that list is absent (some
object on the path is missing) or empty. -/
theorem isBotMentioned_spec (w : World) (botId : String) (msg : WAMessage) (isGroup : Bool) :
    (∃ b, isBotMentioned w msg isGroup = .ok b) ∧
      (isBotMentioned { w with userId := some botId } msg isGroup = .ok true ↔
        isGroup = true ∧
          ∃ message ext ctx list mention, msg.message = some message ∧
            message.extendedTextMessage = some ext ∧ ext.contextInfo = some ctx ∧
            ctx.mentionedJid = some list ∧ mention ∈ list ∧
            ((splitHead botId ':').data <:+: mention.data ∨ botId.data <:+: mention.data)) ∧
      isBotMentioned w msg false = .ok false ∧
      ((∀ message ext ctx list, msg.message = some message →
          message.extendedTextMessage = some ext → ext.contextInfo = some ctx →
          ctx.mentionedJid = some list → list = []) →
        isBotMentioned w msg isGroup = .ok false) := by
  refine ⟨isBotMentioned_total w msg isGroup, ?_, rfl, ?_⟩
  · rw [isBotMentioned_true_iff]
    constructor
    · rintro ⟨hg, mention, hmem, hm⟩
      obtain ⟨message, ext, ctx, list, h1, h2, h3, h4, h5⟩ :=
        (mem_mentionsOf_iff msg mention).mp hmem
      exact ⟨hg, message, ext, ctx, list, mention, h1, h2, h3, h4, h5, hm⟩
    · rintro ⟨hg, message, ext, ctx, list, mention, h1, h2, h3, h4, h5, hm⟩
      exact ⟨hg, mention,
        (mem_mentionsOf_iff msg mention).mpr ⟨message, ext, ctx, list, h1, h2, h3, h4, h5⟩, hm⟩
  · intro habsent
    apply isBotMentioned_of_no_mentions
    apply List.eq_nil_iff_forall_not_mem.mpr
    intro mention hmem
    obtain ⟨message, ext, ctx, list, h1, h2, h3, h4, h5⟩ :=
      (mem_mentionsOf_iff msg mention).mp hmem
    rw [habsent message ext ctx list h1 h2 h3 h4] at h5
    cases h5

/-- Witness for C3: the group message `hello`, which has no context
information, is not a mention; the group message whose `mentionedJid` list
holds `33700000000@s.whatsapp.net` mentions the bot `33700000000:7@...`, and
does not mention the bot `33799999999:7@...`. -/
theorem isBotMentioned_spec_witness :
    ((∀ message ext ctx list, sampleGroupMessage.message = some message →
          message.extendedTextMessage = some ext → ext.contextInfo = some ctx →
          ctx.mentionedJid = some list → list = []) ∧
      isBotMentioned sampleWorld sampleGroupMessage true = .ok false) ∧
    isBotMentioned { sampleWorld with userId := some "33700000000:7@s.whatsapp.net" }
      sampleMentionMessage true = .ok true ∧
    isBotMentioned { sampleWorld with userId := some "33700000000:7@s.whatsapp.net" }
      sampleMentionMessage false = .ok false ∧
    isBotMentioned { sampleWorld with userId := some "33799999999:7@s.whatsapp.net" }
      sampleMentionMessage true = .ok false :=
  ⟨⟨fun _ _ _ _ h1 h2 _ _ => (by cases h1; cases h2),
    (isBotMentioned_spec sampleWorld "33700000000:7@s.whatsapp.net" sampleGroupMessage
      true).2.2.2 (fun _ _ _ _ h1 h2 _ _ => (by cases h1; cases h2))⟩,
   (isBotMentioned_spec sampleWorld "33700000000:7@s.whatsapp.net" sampleMentionMessage
      true).2.1.mpr
      ⟨rfl, _, _, _, _, "33700000000@s.whatsapp.net", rfl, rfl, rfl, rfl,
        List.mem_singleton.mpr rfl, Or.inl ((includesChars_iff _ _).mp (by decide))⟩,
   rfl, rfl⟩

/-- C7: `sendMessageWithMention` never raises; when its mention-augmented send
fails it makes exactly one further send, to the same destination, with body
`mentionName ++ ": " ++ message`, no mention list and no quoted message. -/
theorem sendMessageWithMention_fallback (w : World) (h : List Effect)
    (dest message mentionJid mentionName : String) (quotedMessage : WAMessage) :
    (sendMessageWithMention w h dest message mentionJid mentionName quotedMessage).1 = .ok () ∧
      (w.succeeds h (Effect.sendMessage dest
          { text := "@" ++ splitHead mentionJid '@' ++ " " ++ message,
            mentions := some [mentionJid] } (some quotedMessage)) = false →
        (sendMessageWithMention w h dest message mentionJid mentionName quotedMessage).2 =
          h ++ [Effect.sendMessage dest
                  { text := "@" ++ splitHead mentionJid '@' ++ " " ++ message,
                    mentions := some [mentionJid] } (some quotedMessage),
                Effect.sendMessage dest
                  { text := mentionName ++ ": " ++ message, mentions := none } none]) := by
  unfold sendMessageWithMention
  simp only
  cases hs : w.succeeds h (Effect.sendMessage dest
      { text := "@" ++ splitHead mentionJid '@' ++ " " ++ message,
        mentions := some [mentionJid] } (some quotedMessage))
  · simp [Run.tryCatch, sendMessage_run]
  · simp [Run.tryCatch]

/-- Witness for C7: a transport on which every call fails. -/
theorem sendMessageWithMention_fallback_witness :
    (⟨none, fun _ _ => false, fun _ _ => none⟩ : World).succeeds []
        (Effect.sendMessage "g@g.us"
          { text := "@" ++ splitHead "336@s.whatsapp.net" '@' ++ " " ++ "hi",
            mentions := some ["336@s.whatsapp.net"] }
          (some ⟨⟨"g@g.us", false, none⟩, none, none, none⟩)) = false ∧
      (sendMessageWithMention ⟨none, fun _ _ => false, fun _ _ => none⟩ [] "g@g.us" "hi"
          "336@s.whatsapp.net" "Ann" ⟨⟨"g@g.us", false, none⟩, none, none, none⟩).2 =
        [] ++ [Effect.sendMessage "g@g.us"
                { text := "@" ++ splitHead "336@s.whatsapp.net" '@' ++ " " ++ "hi",
                  mentions := some ["336@s.whatsapp.net"] }
                (some ⟨⟨"g@g.us", false, none⟩, none, none, none⟩),
              Effect.sendMessage "g@g.us" { text := "Ann" ++ ": " ++ "hi", mentions := none } none] :=
  ⟨rfl, (sendMessageWithMention_fallback ⟨none, fun _ _ => false, fun _ _ => none⟩ [] "g@g.us" "hi"
      "336@s.whatsapp.net" "Ann" ⟨⟨"g@g.us", false, none⟩, none, none, none⟩).2 rfl⟩

/-! ## Claims on `handleMessages` -/

/-- C2: on an event that carries a message, is not from the bot and whose
sender passes `isContactAllowed`, `handleMessages` calls the remote service
exactly when the chat is private, or `isBotMentioned` returned true, or the
extracted text starts with `/`; when none of the three holds it returns
without any remote-service call and without any outbound send. -/
theorem handleMessages_responds_iff (w : World) (self : ContactFilters) (msg : WAMessage)
    (rest : List WAMessage) (message : Message) (jid content : String) (mentioned : Bool)
    (hmsg : msg.message = some message) (hme : msg.key.fromMe = false)
    (hjid : (if endsWith msg.key.remoteJid "@g.us" then jsOr msg.key.participant msg.participant
      else some msg.key.remoteJid) = some jid)
    (hallow : isContactAllowed self jid (endsWith msg.key.remoteJid "@g.us") = true)
    (hcontent : extractMessageContent msg = .ok content)
    (hment : isBotMentioned w msg (endsWith msg.key.remoteJid "@g.us") = .ok mentioned) :
    ((∃ request, Effect.post request ∈ (handleMessages w self ⟨msg :: rest⟩).2) ↔
        (endsWith msg.key.remoteJid "@g.us" = false ∨ mentioned = true ∨
          startsWith content "/" = true)) ∧
      (¬ (endsWith msg.key.remoteJid "@g.us" = false ∨ mentioned = true ∨
            startsWith content "/" = true) →
        (handleMessages w self ⟨msg :: rest⟩).1 = .ok () ∧
          (handleMessages w self ⟨msg :: rest⟩).2.filter Effect.isRemoteCall = [] ∧
          (handleMessages w self ⟨msg :: rest⟩).2.filter Effect.isSend = []) := by
  rw [handleMessages_admitted w self msg rest message jid content mentioned hmsg hme hjid hallow
    hcontent hment]
  obtain ⟨t1, t2, hrun, -, hr1, hr2, -⟩ := respond_run w [Effect.readMessages [msg.key]]
    msg.key.remoteJid content ((jsOr msg.pushName (some "Utilisateur")).getD "")
    (endsWith msg.key.remoteJid "@g.us") mentioned (jsOr msg.key.participant msg.participant) msg
  rw [hrun]
  by_cases hresp : (!(endsWith msg.key.remoteJid "@g.us") || mentioned
      || startsWith content "/") = false
  · rw [if_pos hresp]
    have hno : ¬ (endsWith msg.key.remoteJid "@g.us" = false ∨ mentioned = true ∨
        startsWith content "/" = true) := by
      intro h
      simp only [Bool.or_eq_false_iff, Bool.not_eq_false'] at hresp
      rcases h with h | h | h
      · rw [hresp.1.1] at h; cases h
      · rw [hresp.1.2] at h; cases h
      · rw [hresp.2] at h; cases h
    refine ⟨?_, fun _ => ⟨rfl, rfl, rfl⟩⟩
    constructor
    · rintro ⟨request, hr⟩
      simp at hr
    · intro h
      exact absurd h hno
  · rw [if_neg hresp]
    have hyes : endsWith msg.key.remoteJid "@g.us" = false ∨ mentioned = true ∨
        startsWith content "/" = true := by
      simp only [Bool.not_eq_false, Bool.or_eq_true, Bool.not_eq_true'] at hresp
      rcases hresp with (h | h) | h
      · exact Or.inl h
      · exact Or.inr (Or.inl h)
      · exact Or.inr (Or.inr h)
    refine ⟨?_, fun h => absurd hyes h⟩
    constructor
    · intro _
      exact hyes
    · intro _
      exact ⟨⟨content, msg.key.remoteJid, (jsOr msg.pushName (some "Utilisateur")).getD "",
        endsWith msg.key.remoteJid "@g.us", mentioned,
        jsOr msg.key.participant msg.participant⟩, by simp⟩

/-- Witness for C2: a group message `hello` from an admitted participant,
without mention, is dropped after being marked as read; the private message
`hi` reaches the remote service. -/
theorem handleMessages_responds_iff_witness :
    (sampleGroupMessage.message = some ⟨some "hello", none⟩ ∧
      sampleGroupMessage.key.fromMe = false ∧
      isContactAllowed ⟨[], []⟩ "33612345678@s.whatsapp.net"
        (endsWith sampleGroupMessage.key.remoteJid "@g.us") = true ∧
      extractMessageContent sampleGroupMessage = .ok "hello" ∧
      isBotMentioned sampleWorld sampleGroupMessage
        (endsWith sampleGroupMessage.key.remoteJid "@g.us") = .ok false ∧
      ¬ (endsWith sampleGroupMessage.key.remoteJid "@g.us" = false ∨ false = true ∨
          startsWith "hello" "/" = true) ∧
      (handleMessages sampleWorld ⟨[], []⟩ ⟨[sampleGroupMessage]⟩).1 = .ok () ∧
      (handleMessages sampleWorld ⟨[], []⟩ ⟨[sampleGroupMessage]⟩).2.filter
        Effect.isRemoteCall = [] ∧
      (handleMessages sampleWorld ⟨[], []⟩ ⟨[sampleGroupMessage]⟩).2.filter Effect.isSend = []) ∧
    (samplePrivateMessage.message = some ⟨some "hi", none⟩ ∧
      samplePrivateMessage.key.fromMe = false ∧
      isContactAllowed ⟨[], []⟩ "33612345678@s.whatsapp.net"
        (endsWith samplePrivateMessage.key.remoteJid "@g.us") = true ∧
      extractMessageContent samplePrivateMessage = .ok "hi" ∧
      isBotMentioned sampleWorld samplePrivateMessage
        (endsWith samplePrivateMessage.key.remoteJid "@g.us") = .ok false ∧
      endsWith samplePrivateMessage.key.remoteJid "@g.us" = false ∧
      ∃ request, Effect.post request ∈
        (handleMessages sampleWorld ⟨[], []⟩ ⟨[samplePrivateMessage]⟩).2) :=
  ⟨⟨rfl, rfl, by decide, rfl, rfl, by decide,
    (handleMessages_responds_iff sampleWorld ⟨[], []⟩ sampleGroupMessage [] ⟨some "hello", none⟩
      "33612345678@s.whatsapp.net" "hello" false rfl rfl rfl (by decide) rfl rfl).2 (by decide)⟩,
   ⟨rfl, rfl, by decide, rfl, rfl, by decide,
    (handleMessages_responds_iff sampleWorld ⟨[], []⟩ samplePrivateMessage [] ⟨some "hi", none⟩
      "33612345678@s.whatsapp.net" "hi" false rfl rfl rfl (by decide) rfl rfl).1.mpr
      (Or.inl (by decide))⟩⟩

/-- C8: when `handleMessages` answers an admitted event and the remote service
returns `reply`, a group event with participant `jid` gets as first outbound
send the body `"@" ++ local part of jid ++ " " ++ reply` with mention list
`[jid]`, quoting the original message; a private event gets a single outbound
send to the chat identifier with body `reply`, no mention list and no quote,
and the single remote-service call carries `is_group = false`. -/
theorem handleMessages_reply (w : World) (self : ContactFilters) (msg : WAMessage)
    (rest : List WAMessage) (message : Message) (jid content reply : String) (mentioned : Bool)
    (hmsg : msg.message = some message) (hme : msg.key.fromMe = false)
    (hjid : (if endsWith msg.key.remoteJid "@g.us" then jsOr msg.key.participant msg.participant
      else some msg.key.remoteJid) = some jid)
    (hallow : isContactAllowed self jid (endsWith msg.key.remoteJid "@g.us") = true)
    (hcontent : extractMessageContent msg = .ok content)
    (hment : isBotMentioned w msg (endsWith msg.key.remoteJid "@g.us") = .ok mentioned)
    (hresp : endsWith msg.key.remoteJid "@g.us" = false ∨ mentioned = true ∨
      startsWith content "/" = true)
    (hchat : ∀ h, w.chat h ⟨content, msg.key.remoteJid,
      (jsOr msg.pushName (some "Utilisateur")).getD "", endsWith msg.key.remoteJid "@g.us",
      mentioned, jsOr msg.key.participant msg.participant⟩ = some reply) :
    (handleMessages w self ⟨msg :: rest⟩).1 = .ok () ∧
      (endsWith msg.key.remoteJid "@g.us" = true → jid ≠ "" →
        ((handleMessages w self ⟨msg :: rest⟩).2.filter Effect.isSend).head? =
          some (Effect.sendMessage msg.key.remoteJid
            { text := "@" ++ splitHead jid '@' ++ " " ++ reply, mentions := some [jid] }
            (some msg))) ∧
      (endsWith msg.key.remoteJid "@g.us" = false →
        (handleMessages w self ⟨msg :: rest⟩).2.filter Effect.isSend =
            [Effect.sendMessage msg.key.remoteJid { text := reply, mentions := none } none] ∧
          (handleMessages w self ⟨msg :: rest⟩).2.filter Effect.isRemoteCall =
            [Effect.post ⟨content, msg.key.remoteJid,
              (jsOr msg.pushName (some "Utilisateur")).getD "", false, mentioned,
              jsOr msg.key.participant msg.participant⟩]) := by
  rw [handleMessages_admitted w self msg rest message jid content mentioned hmsg hme hjid hallow
    hcontent hment]
  obtain ⟨t1, t2, hrun, hs1, hr1, hr2, hsome⟩ := respond_run w [Effect.readMessages [msg.key]]
    msg.key.remoteJid content ((jsOr msg.pushName (some "Utilisateur")).getD "")
    (endsWith msg.key.remoteJid "@g.us") mentioned (jsOr msg.key.participant msg.participant) msg
  rw [hrun]
  have hyes : ¬ (!(endsWith msg.key.remoteJid "@g.us") || mentioned
      || startsWith content "/") = false := by
    rcases hresp with h | h | h <;> simp [h]
  rw [if_neg hyes]
  obtain ⟨hgroup, hprivate⟩ := hsome reply (hchat _)
  refine ⟨rfl, ?_, ?_⟩
  · intro hg hne
    rw [hg] at hjid
    simp only [if_true] at hjid
    have htruthy : (endsWith msg.key.remoteJid "@g.us"
        && truthy (jsOr msg.key.participant msg.participant)) = true := by
      rw [hg, hjid]
      simpa [truthy] using hne
    obtain ⟨t3, ht3⟩ := hgroup htruthy
    rw [ht3, hjid]
    simp [List.filter_cons, Effect.isSend, hs1]
  · intro hg
    have hfalsy : (endsWith msg.key.remoteJid "@g.us"
        && truthy (jsOr msg.key.participant msg.participant)) = false := by
      rw [hg]
      rfl
    rw [hprivate hfalsy, hg]
    simp [List.filter_cons, Effect.isSend, Effect.isRemoteCall, hs1, hr1]

/-- Witness for C8: the private message `hi` is answered by one plain send,
and the group message `/status` by a send that mentions and quotes. -/
theorem handleMessages_reply_witness :
    (samplePrivateMessage.message = some ⟨some "hi", none⟩ ∧
      samplePrivateMessage.key.fromMe = false ∧
      isContactAllowed ⟨[], []⟩ "33612345678@s.whatsapp.net"
        (endsWith samplePrivateMessage.key.remoteJid "@g.us") = true ∧
      extractMessageContent samplePrivateMessage = .ok "hi" ∧
      endsWith samplePrivateMessage.key.remoteJid "@g.us" = false ∧
      (handleMessages sampleWorld ⟨[], []⟩ ⟨[samplePrivateMessage]⟩).2.filter Effect.isSend =
        [Effect.sendMessage samplePrivateMessage.key.remoteJid
          { text := "ok", mentions := none } none] ∧
      (handleMessages sampleWorld ⟨[], []⟩ ⟨[samplePrivateMessage]⟩).2.filter
          Effect.isRemoteCall =
        [Effect.post ⟨"hi", samplePrivateMessage.key.remoteJid,
          (jsOr samplePrivateMessage.pushName (some "Utilisateur")).getD "", false, false,
          jsOr samplePrivateMessage.key.participant samplePrivateMessage.participant⟩]) ∧
    (sampleCommandMessage.message = some ⟨some "/status", none⟩ ∧
      sampleCommandMessage.key.fromMe = false ∧
      isContactAllowed ⟨[], []⟩ "33612345678@s.whatsapp.net"
        (endsWith sampleCommandMessage.key.remoteJid "@g.us") = true ∧
      extractMessageContent sampleCommandMessage = .ok "/status" ∧
      startsWith "/status" "/" = true ∧
      endsWith sampleCommandMessage.key.remoteJid "@g.us" = true ∧
      "33612345678@s.whatsapp.net" ≠ "" ∧
      ((handleMessages sampleWorld ⟨[], []⟩ ⟨[sampleCommandMessage]⟩).2.filter
          Effect.isSend).head? =
        some (Effect.sendMessage sampleCommandMessage.key.remoteJid
          { text := "@" ++ splitHead "33612345678@s.whatsapp.net" '@' ++ " " ++ "ok",
            mentions := some ["33612345678@s.whatsapp.net"] }
          (some sampleCommandMessage))) :=
  ⟨⟨rfl, rfl, by decide, rfl, by decide,
    (handleMessages_reply sampleWorld ⟨[], []⟩ samplePrivateMessage [] ⟨some "hi", none⟩
      "33612345678@s.whatsapp.net" "hi" "ok" false rfl rfl rfl (by decide) rfl rfl
      (Or.inl (by decide)) (fun _ => rfl)).2.2 (by decide)⟩,
   ⟨rfl, rfl, by decide, rfl, by decide, by decide, by decide,
    (handleMessages_reply sampleWorld ⟨[], []⟩ sampleCommandMessage [] ⟨some "/status", none⟩
      "33612345678@s.whatsapp.net" "/status" "ok" false rfl rfl rfl (by decide) rfl rfl
      (Or.inr (Or.inr (by decide))) (fun _ => rfl)).2.1 (by decide) (by decide)⟩⟩

end WhatsAppBot
